import Mathlib

/-!
Verification development for the youtube-apis repository: two Go client
packages, `mediadownloader` and `yttranscriptor`, embedded shallowly.
Go strings are Lean strings; Go slices are Lean lists; Go nil pointers
are `Option.none`; Go `error` values are the `GoError` type below, whose
`wrap` constructor models `fmt.Errorf` with a `%w` verb (the wrapped
error is recoverable unchanged, as with errors.Unwrap).  External
collaborators (net/http request validation, encoding/json, the
go.uber.org/ratelimit limiter) are modelled only to the precision the
code's observable behaviour needs; each such model carries a comment.
-/

/-- Models a Go `error` value. `base msg` is an error built from a plain
format string; `wrap ctx e` is `fmt.Errorf(ctx ++ ": %w", e)`, keeping
the wrapped error `e` intact. -/
inductive GoError where
  | base (msg : String)
  | wrap (ctx : String) (err : GoError)
deriving DecidableEq, Repr

/-- The message text of a Go error, as `err.Error()` would render it. -/
def GoError.message : GoError → String
  | .base m => m
  | .wrap ctx e => ctx ++ ": " ++ e.message

/-- Models `errors.Unwrap`: recovers the error wrapped by `%w`. -/
def GoError.unwrap : GoError → Option GoError
  | .base _ => none
  | .wrap _ e => some e

/-- Left brace character, kept as a named constant. -/
def lbrace : Char := Char.ofNat 123

/-- Right brace character, kept as a named constant. -/
def rbrace : Char := Char.ofNat 125

/-- A JSON value.  Numbers are modelled as exact decimal rationals
(the rounding of Go's float64 is not modelled; no claim inspects a
numeric field's value). -/
inductive Json where
  | null
  | bool (b : Bool)
  | num (q : Rat)
  | str (s : String)
  | arr (elems : List Json)
  | obj (fields : List (String × Json))

/-- Whitespace skipping of the JSON scanner. -/
def skipWs (cs : List Char) : List Char :=
  cs.dropWhile (fun c => c = ' ' || c = '\n' || c = '\t' || c = '\r')

/-- Digits of a decimal literal to a natural number. -/
def digitsToNat (ds : List Char) : Nat :=
  ds.foldl (fun n c => 10 * n + (c.toNat - 48)) 0

/-- Scans a JSON string body after the opening quote, handling the
single-character escapes; `\u` escapes are not modelled. -/
def parseStringBody : List Char → Option (String × List Char)
  | [] => none
  | c :: rest =>
    if c = '"' then some ("", rest)
    else if c = '\\' then
      match rest with
      | [] => none
      | e :: rest2 =>
        let ec : Option Char :=
          if e = '"' then some '"'
          else if e = '\\' then some '\\'
          else if e = '/' then some '/'
          else if e = 'n' then some '\n'
          else if e = 't' then some '\t'
          else if e = 'r' then some '\r'
          else none
        match ec with
        | none => none
        | some ch =>
          match parseStringBody rest2 with
          | none => none
          | some (s, rem) => some (String.mk (ch :: s.data), rem)
    else
      match parseStringBody rest with
      | none => none
      | some (s, rem) => some (String.mk (c :: s.data), rem)

/-- Scans a JSON number to an exact rational. -/
def parseNumber (cs : List Char) : Option (Rat × List Char) :=
  let (neg, cs1) :=
    match cs with
    | c :: rest => if c = '-' then (true, rest) else (false, cs)
    | [] => (false, cs)
  let intDs := cs1.takeWhile Char.isDigit
  let cs2 := cs1.dropWhile Char.isDigit
  if intDs.isEmpty then none else
  let (fracDs, cs3) :=
    match cs2 with
    | c :: rest =>
      if c = '.' then (rest.takeWhile Char.isDigit, rest.dropWhile Char.isDigit)
      else ([], cs2)
    | [] => ([], cs2)
  let (expNeg, expDs, cs4) :=
    match cs3 with
    | c :: rest =>
      if c = 'e' || c = 'E' then
        match rest with
        | d :: rest2 =>
          if d = '-' then (true, rest2.takeWhile Char.isDigit, rest2.dropWhile Char.isDigit)
          else if d = '+' then (false, rest2.takeWhile Char.isDigit, rest2.dropWhile Char.isDigit)
          else (false, rest.takeWhile Char.isDigit, rest.dropWhile Char.isDigit)
        | [] => (false, ([] : List Char), rest)
      else (false, ([] : List Char), cs3)
    | [] => (false, ([] : List Char), cs3)
  let mantNat : Nat := digitsToNat (intDs ++ fracDs)
  let mant : Int := if neg then -(mantNat : Int) else (mantNat : Int)
  let base : Rat := (mant : Rat) / ((10 : Rat) ^ fracDs.length)
  let e : Nat := digitsToNat expDs
  let q : Rat := if expNeg then base / ((10 : Rat) ^ e) else base * ((10 : Rat) ^ e)
  some (q, cs4)

mutual

/-- Fuel-indexed recursive-descent JSON value scanner. -/
def parseValue : Nat → List Char → Option (Json × List Char)
  | 0, _ => none
  | Nat.succ fuel, cs =>
    match skipWs cs with
    | [] => none
    | c :: rest =>
      if c = '"' then
        match parseStringBody rest with
        | none => none
        | some (s, rem) => some (Json.str s, rem)
      else if c = lbrace then parseObjectFields fuel (skipWs rest) true
      else if c = '[' then parseArrayElems fuel (skipWs rest) true
      else if c = 'n' then
        match rest with
        | 'u' :: 'l' :: 'l' :: rem => some (Json.null, rem)
        | _ => none
      else if c = 't' then
        match rest with
        | 'r' :: 'u' :: 'e' :: rem => some (Json.bool true, rem)
        | _ => none
      else if c = 'f' then
        match rest with
        | 'a' :: 'l' :: 's' :: 'e' :: rem => some (Json.bool false, rem)
        | _ => none
      else if c = '-' || c.isDigit then
        match parseNumber (c :: rest) with
        | none => none
        | some (q, rem) => some (Json.num q, rem)
      else none

/-- Scans the elements of a JSON array after the opening bracket;
`atStart` is true before the first element. -/
def parseArrayElems : Nat → List Char → Bool → Option (Json × List Char)
  | 0, _, _ => none
  | Nat.succ fuel, cs, atStart =>
    match skipWs cs with
    | [] => none
    | c :: rest =>
      if c = ']' && atStart then some (Json.arr [], rest)
      else
        match parseValue fuel (c :: rest) with
        | none => none
        | some (j, rem) =>
          match skipWs rem with
          | [] => none
          | d :: rem2 =>
            if d = ']' then some (Json.arr [j], rem2)
            else if d = ',' then
              match parseArrayElems fuel rem2 false with
              | some (Json.arr js, rem3) => some (Json.arr (j :: js), rem3)
              | _ => none
            else none

/-- Scans the members of a JSON object after the opening brace;
`atStart` is true before the first member. -/
def parseObjectFields : Nat → List Char → Bool → Option (Json × List Char)
  | 0, _, _ => none
  | Nat.succ fuel, cs, atStart =>
    match skipWs cs with
    | [] => none
    | c :: rest =>
      if c = rbrace && atStart then some (Json.obj [], rest)
      else if c = '"' then
        match parseStringBody rest with
        | none => none
        | some (key, rem) =>
          match skipWs rem with
          | ':' :: rem2 =>
            match parseValue fuel rem2 with
            | none => none
            | some (v, rem3) =>
              match skipWs rem3 with
              | [] => none
              | d :: rem4 =>
                if d = rbrace then some (Json.obj [(key, v)], rem4)
                else if d = ',' then
                  match parseObjectFields fuel rem4 false with
                  | some (Json.obj fs, rem5) => some (Json.obj ((key, v) :: fs), rem5)
                  | _ => none
                else none
          | _ => none
      else none

end

/-- Models the scanning half of `encoding/json.Unmarshal`: the whole
input must be one JSON value with only trailing whitespace. -/
def jsonParse (s : String) : Option Json :=
  match parseValue (s.length + 1) s.data with
  | none => none
  | some (j, rest) => if (skipWs rest).isEmpty then some j else none

/-- Last-occurrence field lookup, matching encoding/json, where a later
duplicate member overwrites an earlier one. -/
def objLookup (fields : List (String × Json)) (key : String) : Option Json :=
  fields.foldl (fun acc kv => if kv.1 = key then some kv.2 else acc) none

/-- Decode a string-typed struct field: absent and null leave the zero
value; a wrong type is an unmarshal error. -/
def fieldStr (fields : List (String × Json)) (key : String) : Option String :=
  match objLookup fields key with
  | none => some ""
  | some Json.null => some ""
  | some (Json.str s) => some s
  | some _ => none

/-- Decode a bool-typed struct field. -/
def fieldBool (fields : List (String × Json)) (key : String) : Option Bool :=
  match objLookup fields key with
  | none => some false
  | some Json.null => some false
  | some (Json.bool b) => some b
  | some _ => none

/-- Decode an int-typed struct field: the JSON number must be integral
(encoding/json rejects a fraction for a Go int; 64-bit overflow is not
modelled). -/
def fieldInt (fields : List (String × Json)) (key : String) : Option Int :=
  match objLookup fields key with
  | none => some 0
  | some Json.null => some 0
  | some (Json.num q) => if q.den = 1 then some q.num else none
  | some _ => none

/-- Decode a float64-typed struct field, as an exact rational. -/
def fieldRat (fields : List (String × Json)) (key : String) : Option Rat :=
  match objLookup fields key with
  | none => some 0
  | some Json.null => some 0
  | some (Json.num q) => some q
  | some _ => none

/-- Decode a slice-typed struct field with the given element decoder:
absent and null give the nil slice, modelled as the empty list. -/
def fieldArr {α : Type} (dec : Json → Option α)
    (fields : List (String × Json)) (key : String) : Option (List α) :=
  match objLookup fields key with
  | none => some []
  | some Json.null => some []
  | some (Json.arr xs) => xs.mapM dec
  | some _ => none

/-- Decode one element of a `[]string`: null leaves the zero value. -/
def decodeStrElem : Json → Option String
  | Json.str s => some s
  | Json.null => some ""
  | _ => none

/-- An outgoing HTTP request: method, URL and headers in insertion
order, as built by http.NewRequest plus Header.Add. -/
structure Request where
  method : String
  url : String
  headers : List (String × String)
deriving DecidableEq, Repr

/-- An HTTP response after the body has been fully read: status code
and body text. -/
structure Response where
  statusCode : Nat
  body : String
deriving DecidableEq, Repr

/-- Models `*http.Client` by its observable behaviour: executing a
request yields a response or a transport-level error message.  A body
read failure of io.ReadAll is folded into the transport error case. -/
structure HttpClient where
  transport : Request → Except String Response

/-- Models the process-wide `http.DefaultClient`.  Its real transport
performs network I/O, which has no place in a pure model; it is kept as
a distinguished value whose transport reports an unreachable network. -/
def httpDefaultClient : HttpClient :=
  ⟨fun _ => Except.error "network unreachable"⟩

/-- Models a go.uber.org/ratelimit token-bucket limiter by its
configuration: `count` admissions per `perNanos` nanoseconds.  The
blocking `Take` has no return value; its occurrence is recorded as an
event in the call trace. -/
structure Limiter where
  count : Nat
  perNanos : Nat
deriving DecidableEq, Repr

/-- Models `time.Second` in nanoseconds. -/
def timeSecond : Nat := 1000000000

/-- Models `ratelimit.Per`, which fixes the admission interval. -/
def ratelimitPer (d : Nat) : Nat := d

/-- Models `ratelimit.New(count, ratelimit.Per(d))`. -/
def ratelimitNew (count : Nat) (perNanos : Nat) : Limiter :=
  ⟨count, perNanos⟩

/-- Models the URL acceptance check of `http.NewRequest` (via
url.Parse): a URL containing an ASCII control character or a space is
rejected, everything else is accepted.  This captures the fragment of
net/url validation the code can observe. -/
def urlStringOk (s : String) : Bool :=
  s.data.all (fun c => 33 ≤ c.toNat)

/-- The error url.Parse reports for a rejected URL; its exact message
text is abstracted. -/
def urlParseErr : GoError := GoError.base "invalid URL"

/-- Models `http.NewRequest(method, url, nil)`. -/
def httpNewRequest (method url : String) : Except GoError Request :=
  if urlStringOk url then Except.ok ⟨method, url, []⟩
  else Except.error urlParseErr

/-- Models the two `req.Header.Add` calls shared by both clients: the
request with the RapidAPI key and host headers attached, in insertion
order. -/
def withApiHeaders (req : Request) (apiKey host : String) : Request :=
  { req with headers := [("X-RapidAPI-Key", apiKey), ("X-RapidAPI-Host", host)] }

/-- One observable step of a client call, in the order the Go code
performs them; a call's trace lists the steps that actually ran. -/
inductive Event where
  | optionsApplied
  | rateLimitTaken
  | requestIssued (req : Request)
  | statusChecked (code : Nat)
  | bodyDecoded
deriving DecidableEq, Repr

/-- The full observable outcome of one client call: the client value
after the call (the code never mutates it), the trace of executed
steps, and the Go-style (value, error) pair, where `val = none` models
a nil first return value. -/
structure CallOutcome (κ : Type) (α : Type) where
  client : κ
  trace : List Event
  val : Option α
  err : Option GoError

namespace mediadownloader

/-- The configuration record mutated by construction options
(`options` in mediadownloader.go); the zero value has empty host and
nil limiter and transport pointers. -/
structure options where
  host : String
  rateLimit : Option Limiter
  httpClient : Option HttpClient

/-- A construction option (`Option` in the Go source; renamed because
`Option` is taken in Lean): a state transformer that may fail. -/
def ClientOption : Type := options → Except GoError options

/-- Models `WithHost`: validates the host by attempting
`http.NewRequest("GET", "https://" ++ host, nil)`. -/
def WithHost (host : String) : ClientOption := fun o =>
  match httpNewRequest "GET" ("https://" ++ host) with
  | Except.error e => Except.error (GoError.wrap "invalid host" e)
  | Except.ok _ => Except.ok { o with host := host }

/-- Models `WithRateLimit`. -/
def WithRateLimit (rl : Limiter) : ClientOption := fun o =>
  Except.ok { o with rateLimit := some rl }

/-- Models `WithHttpClient`. -/
def WithHttpClient (hc : HttpClient) : ClientOption := fun o =>
  Except.ok { o with httpClient := some hc }

/-- The constructed client. -/
structure Client where
  apiKey : String
  options : options

/-- The option-application loop of `New`: options run in the order
given, stopping at the first failure with its error unwrapped. -/
def applyOptions : List ClientOption → options → Except GoError options
  | [], o => Except.ok o
  | opt :: rest, o =>
    match opt o with
    | Except.error e => Except.error e
    | Except.ok o2 => applyOptions rest o2

/-- Models `New`: applies the options in order (first failure is
wrapped as "bad option" and aborts), then fills the defaults for any
field still at its zero value. -/
def New (apiKey : String) (opts : List ClientOption) : Except GoError Client :=
  match applyOptions opts ⟨"", none, none⟩ with
  | Except.error e => Except.error (GoError.wrap "bad option" e)
  | Except.ok o =>
    let o1 := if o.host = "" then { o with host := "youtube-media-downloader.p.rapidapi.com" } else o
    let o2 := match o1.rateLimit with
      | none => { o1 with rateLimit := some (ratelimitNew 3 (ratelimitPer timeSecond)) }
      | some _ => o1
    let o3 := match o2.httpClient with
      | none => { o2 with httpClient := some httpDefaultClient }
      | some _ => o2
    Except.ok ⟨apiKey, o3⟩

/-- Models the `ContentType` string type. -/
abbrev ContentType : Type := String

/-- Models `ContentTypeVideos`. -/
def ContentTypeVideos : ContentType := "videos"

/-- Models `ContentTypeShorts`. -/
def ContentTypeShorts : ContentType := "shorts"

/-- Models `ContentTypeLive`. -/
def ContentTypeLive : ContentType := "live"

/-- Models `ContentTypeUndefined`. -/
def ContentTypeUndefined : ContentType := ""

/-- The per-call option record of `GetChannelVideos`. -/
structure getChannelVideosOptions where
  lang : String
  contentType : ContentType
deriving DecidableEq, Repr

/-- A per-call option of `GetChannelVideos` (the unexported
`getChannelVideosOption` function type). -/
def getChannelVideosOption : Type :=
  getChannelVideosOptions → Except GoError getChannelVideosOptions

/-- Models `WithLang` of mediadownloader. -/
def WithLang (lang : String) : getChannelVideosOption := fun o =>
  Except.ok { o with lang := lang }

/-- Models `WithContentType`. -/
def WithContentType (contentType : ContentType) : getChannelVideosOption := fun o =>
  Except.ok { o with contentType := contentType }

/-- The option-application loop at the start of `GetChannelVideos`. -/
def applyGetChannelVideosOptions :
    List getChannelVideosOption → getChannelVideosOptions →
    Except GoError getChannelVideosOptions
  | [], o => Except.ok o
  | opt :: rest, o =>
    match opt o with
    | Except.error e => Except.error e
    | Except.ok o2 => applyGetChannelVideosOptions rest o2

/-- Lines 136-149 of mediadownloader.go: apply the per-call options to
the zero record, then default lang to "en" and contentType to
videos. -/
def resolveGetChannelVideosOptions (opts : List getChannelVideosOption) :
    Except GoError getChannelVideosOptions :=
  match applyGetChannelVideosOptions opts ⟨"", ContentTypeUndefined⟩ with
  | Except.error e => Except.error e
  | Except.ok o =>
    let o1 := if o.lang = "" then { o with lang := "en" } else o
    let o2 := if o1.contentType = ContentTypeUndefined then { o1 with contentType := ContentTypeVideos } else o1
    Except.ok o2

/-- A thumbnail of the channel-videos schema. -/
structure Thumbnail where
  URL : String
  Width : Int
  Height : Int
  Moving : Bool
deriving DecidableEq, Repr

/-- One item of the channel-videos schema (`Video`); the Go field
`Type` is rendered `Type_` because `Type` is reserved in Lean. -/
structure Video where
  Type_ : String
  ID : String
  Title : String
  IsLiveNow : Bool
  LengthText : String
  ViewCountText : String
  PublishedTimeText : String
  Thumbnails : List Thumbnail
deriving DecidableEq, Repr

/-- The wire response of the channel-videos endpoint
(`getChannelVideosResponse`). -/
structure getChannelVideosResponse where
  Status : Bool
  NextToken : String
  Items : List Video
deriving DecidableEq, Repr

/-- Decodes one JSON value into a `Thumbnail` per the struct tags. -/
def decodeThumbnail (j : Json) : Option Thumbnail :=
  match j with
  | Json.null => some ⟨"", 0, 0, false⟩
  | Json.obj f => do
    let url ← fieldStr f "url"
    let width ← fieldInt f "width"
    let height ← fieldInt f "height"
    let moving ← fieldBool f "moving"
    some ⟨url, width, height, moving⟩
  | _ => none

/-- Decodes one JSON value into a `Video` per the struct tags. -/
def decodeVideo (j : Json) : Option Video :=
  match j with
  | Json.null => some ⟨"", "", "", false, "", "", "", []⟩
  | Json.obj f => do
    let ty ← fieldStr f "type"
    let id ← fieldStr f "id"
    let title ← fieldStr f "title"
    let live ← fieldBool f "isLiveNow"
    let lengthText ← fieldStr f "lengthText"
    let viewCountText ← fieldStr f "viewCountText"
    let publishedTimeText ← fieldStr f "publishedTimeText"
    let thumbnails ← fieldArr decodeThumbnail f "thumbnails"
    some ⟨ty, id, title, live, lengthText, viewCountText, publishedTimeText, thumbnails⟩
  | _ => none

/-- Decodes the top-level channel-videos response object. -/
def decodeChannelVideosResponse (j : Json) : Option getChannelVideosResponse :=
  match j with
  | Json.null => some ⟨false, "", []⟩
  | Json.obj f => do
    let status ← fieldBool f "status"
    let nextToken ← fieldStr f "nextToken"
    let items ← fieldArr decodeVideo f "items"
    some ⟨status, nextToken, items⟩
  | _ => none

/-- Models `json.Unmarshal(body, &getChannelVideosResponse{})`; the
inner error messages of encoding/json are abstracted. -/
def jsonUnmarshalChannelVideos (body : String) :
    Except GoError getChannelVideosResponse :=
  match jsonParse body with
  | none => Except.error (GoError.base "invalid JSON")
  | some j =>
    match decodeChannelVideosResponse j with
    | none => Except.error (GoError.base "cannot unmarshal JSON value")
    | some r => Except.ok r

/-- Line 151 of mediadownloader.go: the outbound URL format string. -/
def channelVideosURL (host channelID lang : String) : String :=
  "https://" ++ host ++ "/v2/channel/videos?channelId=" ++ channelID ++ "&lang=" ++ lang

/-- Models `GetChannelVideos` line by line.  Besides the Go return pair
(`val`, `err`), the outcome records the trace of executed steps and
threads the client value through the call unchanged. -/
def GetChannelVideos (c : Client) (channelID : String)
    (opts : List getChannelVideosOption) : CallOutcome Client (List Video) :=
  match resolveGetChannelVideosOptions opts with
  | Except.error e => ⟨c, [], none, some (GoError.wrap "bad option" e)⟩
  | Except.ok o =>
    match httpNewRequest "GET" (channelVideosURL c.options.host channelID o.lang) with
    | Except.error e =>
      ⟨c, [Event.optionsApplied, Event.rateLimitTaken], none,
        some (GoError.wrap "failed to create request" e)⟩
    | Except.ok req0 =>
      match (c.options.httpClient.getD httpDefaultClient).transport (withApiHeaders req0 c.apiKey c.options.host) with
      | Except.error msg =>
        ⟨c, [Event.optionsApplied, Event.rateLimitTaken,
            Event.requestIssued (withApiHeaders req0 c.apiKey c.options.host)], none,
          some (GoError.wrap "failed to execute request" (GoError.base msg))⟩
      | Except.ok res =>
        if res.statusCode ≠ 200 then
          ⟨c, [Event.optionsApplied, Event.rateLimitTaken,
              Event.requestIssued (withApiHeaders req0 c.apiKey c.options.host),
              Event.statusChecked res.statusCode], none,
            some (GoError.base ("http status code is not ok: " ++ res.body))⟩
        else
          match jsonUnmarshalChannelVideos res.body with
          | Except.error e =>
            ⟨c, [Event.optionsApplied, Event.rateLimitTaken,
                Event.requestIssued (withApiHeaders req0 c.apiKey c.options.host),
                Event.statusChecked res.statusCode, Event.bodyDecoded], none,
              some (GoError.wrap "failed to unmarshal response body" e)⟩
          | Except.ok response =>
            ⟨c, [Event.optionsApplied, Event.rateLimitTaken,
                Event.requestIssued (withApiHeaders req0 c.apiKey c.options.host),
                Event.statusChecked res.statusCode, Event.bodyDecoded],
              some response.Items, none⟩

end mediadownloader

namespace yttranscriptor

/-- The configuration record of transcriptor.go's `options`. -/
structure options where
  host : String
  rateLimit : Option Limiter
  httpClient : Option HttpClient

/-- A construction option (`Option` in the Go source). -/
def ClientOption : Type := options → Except GoError options

/-- Models transcriptor.go's `WithHost`. -/
def WithHost (host : String) : ClientOption := fun o =>
  match httpNewRequest "GET" ("https://" ++ host) with
  | Except.error e => Except.error (GoError.wrap "invalid host" e)
  | Except.ok _ => Except.ok { o with host := host }

/-- Models transcriptor.go's `WithRateLimit`. -/
def WithRateLimit (rl : Limiter) : ClientOption := fun o =>
  Except.ok { o with rateLimit := some rl }

/-- Models transcriptor.go's `WithHttpClient`. -/
def WithHttpClient (hc : HttpClient) : ClientOption := fun o =>
  Except.ok { o with httpClient := some hc }

/-- The constructed client. -/
structure Client where
  apiKey : String
  options : options

/-- The option-application loop of transcriptor.go's `New`. -/
def applyOptions : List ClientOption → options → Except GoError options
  | [], o => Except.ok o
  | opt :: rest, o =>
    match opt o with
    | Except.error e => Except.error e
    | Except.ok o2 => applyOptions rest o2

/-- Models transcriptor.go's `New`: options in order, first failure
wrapped as "bad option" and aborting, then the defaults. -/
def New (apiKey : String) (opts : List ClientOption) : Except GoError Client :=
  match applyOptions opts ⟨"", none, none⟩ with
  | Except.error e => Except.error (GoError.wrap "bad option" e)
  | Except.ok o =>
    let o1 := if o.host = "" then { o with host := "youtube-transcriptor.p.rapidapi.com" } else o
    let o2 := match o1.rateLimit with
      | none => { o1 with rateLimit := some (ratelimitNew 10 (ratelimitPer timeSecond)) }
      | some _ => o1
    let o3 := match o2.httpClient with
      | none => { o2 with httpClient := some httpDefaultClient }
      | some _ => o2
    Except.ok ⟨apiKey, o3⟩

/-- The per-call option record of `GetTranscript`. -/
structure getTranscriptOptions where
  lang : String
deriving DecidableEq, Repr

/-- A per-call option of `GetTranscript`. -/
def getTranscriptOption : Type :=
  getTranscriptOptions → Except GoError getTranscriptOptions

/-- Models transcriptor.go's `WithLang`. -/
def WithLang (lang : String) : getTranscriptOption := fun o =>
  Except.ok { o with lang := lang }

/-- The option-application loop at the start of `GetTranscript`. -/
def applyGetTranscriptOptions :
    List getTranscriptOption → getTranscriptOptions →
    Except GoError getTranscriptOptions
  | [], o => Except.ok o
  | opt :: rest, o =>
    match opt o with
    | Except.error e => Except.error e
    | Except.ok o2 => applyGetTranscriptOptions rest o2

/-- Lines 131-141 of transcriptor.go: apply per-call options, then
default lang to "en". -/
def resolveGetTranscriptOptions (opts : List getTranscriptOption) :
    Except GoError getTranscriptOptions :=
  match applyGetTranscriptOptions opts ⟨""⟩ with
  | Except.error e => Except.error e
  | Except.ok o =>
    Except.ok (if o.lang = "" then { o with lang := "en" } else o)

/-- A thumbnail of the transcript schema (no moving flag). -/
structure Thumbnail where
  URL : String
  Width : Int
  Height : Int
deriving DecidableEq, Repr

/-- One transcript segment (`Transcription`); float64 fields are
modelled as exact rationals. -/
structure Transcription where
  Subtitle : String
  Start : Rat
  Dur : Rat
deriving DecidableEq, Repr

/-- The transcript response (`GetTranscriptResponse`). -/
structure GetTranscriptResponse where
  Title : String
  Description : String
  AvailableLangs : List String
  LengthInSeconds : String
  Thumbnails : List Thumbnail
  Transcription : List Transcription
deriving DecidableEq, Repr

/-- Models the method `GetTranscriptResponse.String()` (named
`fullString` here to avoid shadowing Lean's `String` type): appends
each subtitle plus a space into one accumulator, then drops the final
byte unless the accumulator is empty.  The dropped final byte is the
just-appended ASCII space, so the byte slice `subtitles[:len-1]` is the
character-level `dropLast` used here. -/
def GetTranscriptResponse.fullString (g : GetTranscriptResponse) : String :=
  let subtitles := g.Transcription.foldl (fun acc t => acc ++ (t.Subtitle ++ " ")) ""
  if subtitles.length = 0 then "" else String.mk subtitles.data.dropLast

/-- Decodes one JSON value into a transcript `Thumbnail`. -/
def decodeThumbnail (j : Json) : Option Thumbnail :=
  match j with
  | Json.null => some ⟨"", 0, 0⟩
  | Json.obj f => do
    let url ← fieldStr f "url"
    let width ← fieldInt f "width"
    let height ← fieldInt f "height"
    some ⟨url, width, height⟩
  | _ => none

/-- Decodes one JSON value into a `Transcription` segment. -/
def decodeTranscription (j : Json) : Option Transcription :=
  match j with
  | Json.null => some ⟨"", 0, 0⟩
  | Json.obj f => do
    let subtitle ← fieldStr f "subtitle"
    let start ← fieldRat f "start"
    let dur ← fieldRat f "dur"
    some ⟨subtitle, start, dur⟩
  | _ => none

/-- Decodes the top-level transcript response object. -/
def decodeTranscriptResponse (j : Json) : Option GetTranscriptResponse :=
  match j with
  | Json.null => some ⟨"", "", [], "", [], []⟩
  | Json.obj f => do
    let title ← fieldStr f "title"
    let description ← fieldStr f "description"
    let availableLangs ← fieldArr decodeStrElem f "availableLangs"
    let lengthInSeconds ← fieldStr f "lengthInSeconds"
    let thumbnails ← fieldArr decodeThumbnail f "thumbnails"
    let transcription ← fieldArr decodeTranscription f "transcription"
    some ⟨title, description, availableLangs, lengthInSeconds, thumbnails, transcription⟩
  | _ => none

/-- Models `json.Unmarshal(body, &transcript)`. -/
def jsonUnmarshalTranscript (body : String) :
    Except GoError GetTranscriptResponse :=
  match jsonParse body with
  | none => Except.error (GoError.base "invalid JSON")
  | some j =>
    match decodeTranscriptResponse j with
    | none => Except.error (GoError.base "cannot unmarshal JSON value")
    | some r => Except.ok r

/-- Line 143 of transcriptor.go: the outbound URL format string. -/
def transcriptURL (host videoID lang : String) : String :=
  "https://" ++ host ++ "/transcript?video_id=" ++ videoID ++ "&lang=" ++ lang

/-- Models `GetTranscript` line by line; `val = some r` models the
non-nil `*GetTranscriptResponse` and `val = none` the nil pointer
returned on every error path. -/
def GetTranscript (c : Client) (videoID : String)
    (opts : List getTranscriptOption) : CallOutcome Client GetTranscriptResponse :=
  match resolveGetTranscriptOptions opts with
  | Except.error e => ⟨c, [], none, some (GoError.wrap "bad option" e)⟩
  | Except.ok o =>
    match httpNewRequest "GET" (transcriptURL c.options.host videoID o.lang) with
    | Except.error e =>
      ⟨c, [Event.optionsApplied, Event.rateLimitTaken], none,
        some (GoError.wrap "failed to create request" e)⟩
    | Except.ok req0 =>
      match (c.options.httpClient.getD httpDefaultClient).transport (withApiHeaders req0 c.apiKey c.options.host) with
      | Except.error msg =>
        ⟨c, [Event.optionsApplied, Event.rateLimitTaken,
            Event.requestIssued (withApiHeaders req0 c.apiKey c.options.host)], none,
          some (GoError.wrap "failed to execute request" (GoError.base msg))⟩
      | Except.ok res =>
        if res.statusCode ≠ 200 then
          ⟨c, [Event.optionsApplied, Event.rateLimitTaken,
              Event.requestIssued (withApiHeaders req0 c.apiKey c.options.host),
              Event.statusChecked res.statusCode], none,
            some (GoError.base ("http status code is not ok: " ++ res.body))⟩
        else
          match jsonUnmarshalTranscript res.body with
          | Except.error e =>
            ⟨c, [Event.optionsApplied, Event.rateLimitTaken,
                Event.requestIssued (withApiHeaders req0 c.apiKey c.options.host),
                Event.statusChecked res.statusCode, Event.bodyDecoded], none,
              some (GoError.wrap "failed to unmarshal response" e)⟩
          | Except.ok transcript =>
            ⟨c, [Event.optionsApplied, Event.rateLimitTaken,
                Event.requestIssued (withApiHeaders req0 c.apiKey c.options.host),
                Event.statusChecked res.statusCode, Event.bodyDecoded],
              some transcript, none⟩

end yttranscriptor

/-- Spec-side rendering of the derived full-text view: the subtitle
texts joined by a single separating space, with no trailing separator,
and empty for the empty list. -/
def sepBySpace : List String → String
  | [] => ""
  | [s] => s
  | s :: s2 :: rest => s ++ " " ++ sepBySpace (s2 :: rest)

/-- Each subtitle followed by one space, all concatenated; this is the
shape of the accumulator built by the Go loop. -/
def joinSp : List String → String
  | [] => ""
  | s :: rest => (s ++ " ") ++ joinSp rest

theorem foldl_subtitles (l : List yttranscriptor.Transcription) (acc : String) :
    l.foldl (fun acc t => acc ++ (t.Subtitle ++ " ")) acc
      = acc ++ joinSp (l.map yttranscriptor.Transcription.Subtitle) := by
  induction l generalizing acc with
  | nil => simp [joinSp]
  | cons t rest ih =>
    simp only [List.foldl_cons, List.map_cons, joinSp, ih, String.append_assoc]

theorem joinSp_eq_sepBySpace (subs : List String) (h : subs ≠ []) :
    joinSp subs = sepBySpace subs ++ " " := by
  induction subs with
  | nil => exact absurd rfl h
  | cons s rest ih =>
    cases rest with
    | nil => simp [joinSp, sepBySpace]
    | cons s2 rest2 =>
      have ih2 := ih (by simp)
      simp only [joinSp] at ih2 ⊢
      rw [ih2]
      simp only [sepBySpace]
      simp [String.append_assoc]

theorem joinSp_length_ne_zero (subs : List String) (h : subs ≠ []) :
    (joinSp subs).length ≠ 0 := by
  cases subs with
  | nil => exact absurd rfl h
  | cons s rest =>
    have h1 : (" ").length = 1 := rfl
    simp only [joinSp, String.length_append, h1]
    omega

/-- C1: for every list of transcript segments, the derived full-text
view (the model of GetTranscriptResponse.String) equals the
concatenation of each segment's subtitle text separated by a single
space with no trailing separator, and equals the empty string for the
empty segment list. -/
theorem claim_C1_fullString_joins_subtitles (g : yttranscriptor.GetTranscriptResponse) :
    g.fullString = sepBySpace (g.Transcription.map yttranscriptor.Transcription.Subtitle) := by
  unfold yttranscriptor.GetTranscriptResponse.fullString
  rw [foldl_subtitles]
  simp only [String.empty_append]
  rcases hmap : g.Transcription.map yttranscriptor.Transcription.Subtitle with _ | ⟨s, rest⟩
  · simp [joinSp, sepBySpace]
  · have hne : (s :: rest) ≠ ([] : List String) := by simp
    rw [joinSp_eq_sepBySpace _ hne]
    have hlen : (joinSp (s :: rest)).length ≠ 0 := joinSp_length_ne_zero _ hne
    rw [joinSp_eq_sepBySpace _ hne] at hlen
    simp only [hlen, if_neg hlen]
    rw [String.data_append]
    show String.mk ((sepBySpace (s :: rest)).data ++ [' ']).dropLast = _
    rw [List.dropLast_concat]

/-- C5: with no options, construction and call-time defaults are: lang
"en" for both clients, contentType "videos" for the channel-videos
client, limiters of 3 and 10 requests per second, the two documented
service hosts, and the standard default HTTP transport. -/
theorem claim_C5_defaults (apiKey : String) :
    mediadownloader.New apiKey []
        = Except.ok ⟨apiKey, ⟨"youtube-media-downloader.p.rapidapi.com",
            some ⟨3, timeSecond⟩, some httpDefaultClient⟩⟩
      ∧ yttranscriptor.New apiKey []
        = Except.ok ⟨apiKey, ⟨"youtube-transcriptor.p.rapidapi.com",
            some ⟨10, timeSecond⟩, some httpDefaultClient⟩⟩
      ∧ mediadownloader.resolveGetChannelVideosOptions []
        = Except.ok ⟨"en", mediadownloader.ContentTypeVideos⟩
      ∧ yttranscriptor.resolveGetTranscriptOptions [] = Except.ok ⟨"en"⟩
      ∧ ratelimitNew 3 (ratelimitPer timeSecond) = ⟨3, timeSecond⟩
      ∧ ratelimitNew 10 (ratelimitPer timeSecond) = ⟨10, timeSecond⟩ :=
  ⟨rfl, rfl, rfl, rfl, rfl, rfl⟩

/-- C8: a call never changes the client configuration: the client value
threaded through either Get call comes back unchanged in every branch,
success or failure. -/
theorem claim_C8_client_unchanged (c : mediadownloader.Client) (chid : String)
    (opts : List mediadownloader.getChannelVideosOption)
    (c' : yttranscriptor.Client) (vid : String)
    (opts' : List yttranscriptor.getTranscriptOption) :
    (mediadownloader.GetChannelVideos c chid opts).client = c
      ∧ (yttranscriptor.GetTranscript c' vid opts').client = c' := by
  constructor
  · unfold mediadownloader.GetChannelVideos
    repeat first | rfl | split
  · unfold yttranscriptor.GetTranscript
    repeat first | rfl | split

/-- C9: the empty string as an option value is indistinguishable from
omitting the option: WithHost "" leaves construction exactly as with no
options (hence the default service host), and WithLang "" makes either
Get call identical to one without the option (hence lang "en"). -/
theorem claim_C9_empty_option_like_omitted (apiKey : String)
    (c : mediadownloader.Client) (chid : String)
    (c' : yttranscriptor.Client) (vid : String) :
    mediadownloader.New apiKey [mediadownloader.WithHost ""] = mediadownloader.New apiKey []
      ∧ yttranscriptor.New apiKey [yttranscriptor.WithHost ""] = yttranscriptor.New apiKey []
      ∧ mediadownloader.GetChannelVideos c chid [mediadownloader.WithLang ""]
          = mediadownloader.GetChannelVideos c chid []
      ∧ yttranscriptor.GetTranscript c' vid [yttranscriptor.WithLang ""]
          = yttranscriptor.GetTranscript c' vid [] :=
  ⟨rfl, rfl, rfl, rfl⟩

/-- The canonical step order of a channel-videos or transcript call. -/
def canonicalTrace (req : Request) (code : Nat) : List Event :=
  [Event.optionsApplied, Event.rateLimitTaken, Event.requestIssued req,
    Event.statusChecked code, Event.bodyDecoded]

/-- C7: each call executes a prefix of the canonical step order: apply
options, take a rate-limit token, issue the request, check the status,
decode the body.  In particular a requestIssued event can only appear
after rateLimitTaken: the HTTP request is never executed before a
token has been granted. -/
theorem claim_C7_step_order (c : mediadownloader.Client) (chid : String)
    (opts : List mediadownloader.getChannelVideosOption)
    (c' : yttranscriptor.Client) (vid : String)
    (opts' : List yttranscriptor.getTranscriptOption) :
    (∃ k req code, (mediadownloader.GetChannelVideos c chid opts).trace
        = (canonicalTrace req code).take k)
      ∧ (∃ k req code, (yttranscriptor.GetTranscript c' vid opts').trace
        = (canonicalTrace req code).take k) := by
  constructor
  · unfold mediadownloader.GetChannelVideos
    split
    · exact ⟨0, ⟨"GET", "", []⟩, 0, rfl⟩
    · split
      · exact ⟨2, ⟨"GET", "", []⟩, 0, rfl⟩
      · split
        · exact ⟨3, _, 0, rfl⟩
        · split
          · exact ⟨4, _, _, rfl⟩
          · split
            · exact ⟨5, _, _, rfl⟩
            · exact ⟨5, _, _, rfl⟩
  · unfold yttranscriptor.GetTranscript
    split
    · exact ⟨0, ⟨"GET", "", []⟩, 0, rfl⟩
    · split
      · exact ⟨2, ⟨"GET", "", []⟩, 0, rfl⟩
      · split
        · exact ⟨3, _, 0, rfl⟩
        · split
          · exact ⟨4, _, _, rfl⟩
          · split
            · exact ⟨5, _, _, rfl⟩
            · exact ⟨5, _, _, rfl⟩

/-- C10: each call yields exactly one of value and error: the items
list (resp. the transcript pointer) is nil precisely when the error is
non-nil. -/
theorem claim_C10_value_xor_error (c : mediadownloader.Client) (chid : String)
    (opts : List mediadownloader.getChannelVideosOption)
    (c' : yttranscriptor.Client) (vid : String)
    (opts' : List yttranscriptor.getTranscriptOption) :
    ((mediadownloader.GetChannelVideos c chid opts).val = none
        ↔ (mediadownloader.GetChannelVideos c chid opts).err.isSome = true)
      ∧ ((yttranscriptor.GetTranscript c' vid opts').val = none
        ↔ (yttranscriptor.GetTranscript c' vid opts').err.isSome = true) := by
  constructor
  · unfold mediadownloader.GetChannelVideos
    repeat' split
    all_goals simp
  · unfold yttranscriptor.GetTranscript
    repeat' split
    all_goals simp

theorem md_applyOptions_append (l1 l2 : List mediadownloader.ClientOption)
    (o : mediadownloader.options) :
    mediadownloader.applyOptions (l1 ++ l2) o
      = match mediadownloader.applyOptions l1 o with
        | Except.error e => Except.error e
        | Except.ok o2 => mediadownloader.applyOptions l2 o2 := by
  induction l1 generalizing o with
  | nil => simp [mediadownloader.applyOptions]
  | cons opt rest ih =>
    simp only [List.cons_append, mediadownloader.applyOptions]
    cases opt o with
    | error e => rfl
    | ok o2 => exact ih o2

theorem yt_applyOptions_append (l1 l2 : List yttranscriptor.ClientOption)
    (o : yttranscriptor.options) :
    yttranscriptor.applyOptions (l1 ++ l2) o
      = match yttranscriptor.applyOptions l1 o with
        | Except.error e => Except.error e
        | Except.ok o2 => yttranscriptor.applyOptions l2 o2 := by
  induction l1 generalizing o with
  | nil => simp [yttranscriptor.applyOptions]
  | cons opt rest ih =>
    simp only [List.cons_append, yttranscriptor.applyOptions]
    cases opt o with
    | error e => rfl
    | ok o2 => exact ih o2

/-- C2: for either client, construction succeeds iff every option
validates in sequence; options run strictly in the given order, and the
first failing option aborts construction immediately (whatever follows
it is never applied), surfacing that option's error — wrapped by the
documented "bad option" context from which errors.Unwrap recovers it
unchanged — and returning no client. -/
theorem claim_C2_option_application (apiKey : String) :
    (∀ opts : List mediadownloader.ClientOption,
        (∃ c, mediadownloader.New apiKey opts = Except.ok c)
          ↔ (∃ o, mediadownloader.applyOptions opts ⟨"", none, none⟩ = Except.ok o))
      ∧ (∀ (pre post : List mediadownloader.ClientOption)
            (opt : mediadownloader.ClientOption) (o : mediadownloader.options) (e : GoError),
          mediadownloader.applyOptions pre ⟨"", none, none⟩ = Except.ok o →
          opt o = Except.error e →
          mediadownloader.New apiKey (pre ++ opt :: post)
              = Except.error (GoError.wrap "bad option" e)
            ∧ (GoError.wrap "bad option" e).unwrap = some e)
      ∧ (∀ opts : List yttranscriptor.ClientOption,
        (∃ c, yttranscriptor.New apiKey opts = Except.ok c)
          ↔ (∃ o, yttranscriptor.applyOptions opts ⟨"", none, none⟩ = Except.ok o))
      ∧ (∀ (pre post : List yttranscriptor.ClientOption)
            (opt : yttranscriptor.ClientOption) (o : yttranscriptor.options) (e : GoError),
          yttranscriptor.applyOptions pre ⟨"", none, none⟩ = Except.ok o →
          opt o = Except.error e →
          yttranscriptor.New apiKey (pre ++ opt :: post)
              = Except.error (GoError.wrap "bad option" e)
            ∧ (GoError.wrap "bad option" e).unwrap = some e) := by
  refine ⟨?_, ?_, ?_, ?_⟩
  · intro opts
    unfold mediadownloader.New
    cases mediadownloader.applyOptions opts ⟨"", none, none⟩ with
    | error e => simp
    | ok o => simp
  · intro pre post opt o e hpre hopt
    refine ⟨?_, rfl⟩
    unfold mediadownloader.New
    rw [md_applyOptions_append, hpre]
    simp only [mediadownloader.applyOptions, hopt]
  · intro opts
    unfold yttranscriptor.New
    cases yttranscriptor.applyOptions opts ⟨"", none, none⟩ with
    | error e => simp
    | ok o => simp
  · intro pre post opt o e hpre hopt
    refine ⟨?_, rfl⟩
    unfold yttranscriptor.New
    rw [yt_applyOptions_append, hpre]
    simp only [yttranscriptor.applyOptions, hopt]

/-- Witness for C2 at concrete inputs: a valid host option constructs a
client, while a host containing a space fails url validation, aborts
construction before the following rate-limit option, and surfaces the
"invalid host" error wrapped as "bad option". -/
theorem claim_C2_option_application_witness :
    (∃ c, mediadownloader.New "k" [mediadownloader.WithHost "ok.example"] = Except.ok c)
      ∧ mediadownloader.New "k"
            ([mediadownloader.WithHost "ok.example"]
              ++ mediadownloader.WithHost "bad host" :: [mediadownloader.WithRateLimit ⟨1, 1⟩])
          = Except.error (GoError.wrap "bad option" (GoError.wrap "invalid host" urlParseErr))
      ∧ (∃ c, yttranscriptor.New "k" [yttranscriptor.WithHost "ok.example"] = Except.ok c)
      ∧ yttranscriptor.New "k"
            ([yttranscriptor.WithHost "ok.example"]
              ++ yttranscriptor.WithHost "bad host" :: [yttranscriptor.WithRateLimit ⟨1, 1⟩])
          = Except.error (GoError.wrap "bad option" (GoError.wrap "invalid host" urlParseErr)) :=
  ⟨((claim_C2_option_application "k").1 [mediadownloader.WithHost "ok.example"]).mpr
      ⟨⟨"ok.example", none, none⟩, rfl⟩,
    ((claim_C2_option_application "k").2.1 [mediadownloader.WithHost "ok.example"]
      [mediadownloader.WithRateLimit ⟨1, 1⟩] (mediadownloader.WithHost "bad host")
      ⟨"ok.example", none, none⟩ (GoError.wrap "invalid host" urlParseErr) rfl rfl).1,
    ((claim_C2_option_application "k").2.2.1 [yttranscriptor.WithHost "ok.example"]).mpr
      ⟨⟨"ok.example", none, none⟩, rfl⟩,
    ((claim_C2_option_application "k").2.2.2 [yttranscriptor.WithHost "ok.example"]
      [yttranscriptor.WithRateLimit ⟨1, 1⟩] (yttranscriptor.WithHost "bad host")
      ⟨"ok.example", none, none⟩ (GoError.wrap "invalid host" urlParseErr) rfl rfl).1⟩

/-- C3: if the transport answers 200 with a body that decodes as a
channel-videos response, GetChannelVideos returns exactly the decoded
items (in their decoded order) with no error; the nextToken field of
the decoded response does not reach the caller, which receives the
Items projection only. -/
theorem claim_C3_ok_returns_items (c : mediadownloader.Client) (chid body : String)
    (resp : mediadownloader.getChannelVideosResponse)
    (hurl : urlStringOk (mediadownloader.channelVideosURL c.options.host chid "en") = true)
    (htr : ∀ req, (c.options.httpClient.getD httpDefaultClient).transport req
      = Except.ok ⟨200, body⟩)
    (hdec : mediadownloader.jsonUnmarshalChannelVideos body = Except.ok resp) :
    (mediadownloader.GetChannelVideos c chid []).val = some resp.Items
      ∧ (mediadownloader.GetChannelVideos c chid []).err = none := by
  have hres : mediadownloader.resolveGetChannelVideosOptions []
      = Except.ok ⟨"en", mediadownloader.ContentTypeVideos⟩ := rfl
  simp [mediadownloader.GetChannelVideos, hres, httpNewRequest, hurl, htr, hdec]

/-- C4: on a non-200 response, both Get functions return a nil value
and the status error, whose message is the documented prefix followed
by the exact raw response body (so the body text occurs verbatim in the
message). -/
theorem claim_C4_non200_status_error (c : mediadownloader.Client)
    (c' : yttranscriptor.Client) (chid vid body : String) (code : Nat)
    (hcode : code ≠ 200)
    (hurl : urlStringOk (mediadownloader.channelVideosURL c.options.host chid "en") = true)
    (htr : ∀ req, (c.options.httpClient.getD httpDefaultClient).transport req
      = Except.ok ⟨code, body⟩)
    (hurl2 : urlStringOk (yttranscriptor.transcriptURL c'.options.host vid "en") = true)
    (htr2 : ∀ req, (c'.options.httpClient.getD httpDefaultClient).transport req
      = Except.ok ⟨code, body⟩) :
    (mediadownloader.GetChannelVideos c chid []).val = none
      ∧ (mediadownloader.GetChannelVideos c chid []).err
          = some (GoError.base ("http status code is not ok: " ++ body))
      ∧ (yttranscriptor.GetTranscript c' vid []).val = none
      ∧ (yttranscriptor.GetTranscript c' vid []).err
          = some (GoError.base ("http status code is not ok: " ++ body))
      ∧ (∃ pre post, (GoError.base ("http status code is not ok: " ++ body)).message
          = pre ++ body ++ post) := by
  have hres : mediadownloader.resolveGetChannelVideosOptions []
      = Except.ok ⟨"en", mediadownloader.ContentTypeVideos⟩ := rfl
  have hres2 : yttranscriptor.resolveGetTranscriptOptions [] = Except.ok ⟨"en"⟩ := rfl
  refine ⟨?_, ?_, ?_, ?_, "http status code is not ok: ", "", by simp [GoError.message]⟩
  · simp [mediadownloader.GetChannelVideos, hres, httpNewRequest, hurl, htr, hcode]
  · simp [mediadownloader.GetChannelVideos, hres, httpNewRequest, hurl, htr, hcode]
  · simp [yttranscriptor.GetTranscript, hres2, httpNewRequest, hurl2, htr2, hcode]
  · simp [yttranscriptor.GetTranscript, hres2, httpNewRequest, hurl2, htr2, hcode]

/-- A channel-videos client whose transport always answers with the
given canned status and body. -/
def mdTestClient (code : Nat) (body : String) : mediadownloader.Client :=
  ⟨"key", ⟨"h.example", some ⟨3, timeSecond⟩, some ⟨fun _ => Except.ok ⟨code, body⟩⟩⟩⟩

/-- A transcript client whose transport always answers with the given
canned status and body. -/
def ytTestClient (code : Nat) (body : String) : yttranscriptor.Client :=
  ⟨"key", ⟨"t.example", some ⟨10, timeSecond⟩, some ⟨fun _ => Except.ok ⟨code, body⟩⟩⟩⟩

/-- A well-formed channel-videos JSON body with one item. -/
def c3body : String :=
  "\x7b\"status\":true,\"nextToken\":\"tok\",\"items\":[\x7b\"type\":\"video\",\"id\":\"v1\",\"title\":\"T\"\x7d]\x7d"

/-- Witness for C3: against a canned 200 response with body `c3body`,
GetChannelVideos returns exactly the decoded item and no error. -/
theorem claim_C3_ok_returns_items_witness :
    (mediadownloader.GetChannelVideos (mdTestClient 200 c3body) "UC1" []).val
        = some [⟨"video", "v1", "T", false, "", "", "", []⟩]
      ∧ (mediadownloader.GetChannelVideos (mdTestClient 200 c3body) "UC1" []).err = none :=
  claim_C3_ok_returns_items (mdTestClient 200 c3body) "UC1" c3body
    ⟨true, "tok", [⟨"video", "v1", "T", false, "", "", "", []⟩]⟩
    (by decide) (fun _ => rfl) (by rfl)

/-- Witness for C4: a canned 404 response with body "nope" produces a
nil value and the status error carrying the body verbatim, for both
clients. -/
theorem claim_C4_non200_status_error_witness :
    (mediadownloader.GetChannelVideos (mdTestClient 404 "nope") "UC1" []).val = none
      ∧ (mediadownloader.GetChannelVideos (mdTestClient 404 "nope") "UC1" []).err
          = some (GoError.base ("http status code is not ok: " ++ "nope"))
      ∧ (yttranscriptor.GetTranscript (ytTestClient 404 "nope") "vid1" []).val = none
      ∧ (yttranscriptor.GetTranscript (ytTestClient 404 "nope") "vid1" []).err
          = some (GoError.base ("http status code is not ok: " ++ "nope"))
      ∧ (∃ pre post, (GoError.base ("http status code is not ok: " ++ "nope")).message
          = pre ++ "nope" ++ post) :=
  claim_C4_non200_status_error (mdTestClient 404 "nope") (ytTestClient 404 "nope")
    "UC1" "vid1" "nope" 404 (by decide) (by decide) (fun _ => rfl) (by decide) (fun _ => rfl)

theorem httpNewRequest_ok_shape (m u : String) (r : Request)
    (h : httpNewRequest m u = Except.ok r) : r = ⟨m, u, []⟩ := by
  unfold httpNewRequest at h
  split at h
  · injection h with h2
    exact h2.symm
  · exact absurd h (by simp)

theorem md_request_url (c : mediadownloader.Client) (chid : String)
    (opts : List mediadownloader.getChannelVideosOption)
    (o : mediadownloader.getChannelVideosOptions) (req : Request)
    (hres : mediadownloader.resolveGetChannelVideosOptions opts = Except.ok o)
    (hmem : Event.requestIssued req ∈ (mediadownloader.GetChannelVideos c chid opts).trace) :
    req.url = mediadownloader.channelVideosURL c.options.host chid o.lang := by
  simp only [mediadownloader.GetChannelVideos, hres] at hmem
  split at hmem
  · simp at hmem
  next req0 heq =>
    obtain rfl := httpNewRequest_ok_shape _ _ _ heq
    split at hmem
    · simp at hmem
      subst hmem
      rfl
    · split at hmem
      · simp at hmem
        subst hmem
        rfl
      · split at hmem
        · simp at hmem
          subst hmem
          rfl
        · simp at hmem
          subst hmem
          rfl

theorem yt_request_url (c : yttranscriptor.Client) (vid : String)
    (opts : List yttranscriptor.getTranscriptOption)
    (o : yttranscriptor.getTranscriptOptions) (req : Request)
    (hres : yttranscriptor.resolveGetTranscriptOptions opts = Except.ok o)
    (hmem : Event.requestIssued req ∈ (yttranscriptor.GetTranscript c vid opts).trace) :
    req.url = yttranscriptor.transcriptURL c.options.host vid o.lang := by
  simp only [yttranscriptor.GetTranscript, hres] at hmem
  split at hmem
  · simp at hmem
  next req0 heq =>
    obtain rfl := httpNewRequest_ok_shape _ _ _ heq
    split at hmem
    · simp at hmem
      subst hmem
      rfl
    · split at hmem
      · simp at hmem
        subst hmem
        rfl
      · split at hmem
        · simp at hmem
          subst hmem
          rfl
        · simp at hmem
          subst hmem
          rfl

theorem md_resolve_pair (l ct : String) :
    mediadownloader.resolveGetChannelVideosOptions
        [mediadownloader.WithLang l, mediadownloader.WithContentType ct]
      = Except.ok ⟨if l = "" then "en" else l,
          if ct = mediadownloader.ContentTypeUndefined then mediadownloader.ContentTypeVideos else ct⟩ := by
  by_cases hl : l = "" <;> by_cases hc : ct = mediadownloader.ContentTypeUndefined <;>
    simp [mediadownloader.resolveGetChannelVideosOptions,
      mediadownloader.applyGetChannelVideosOptions, mediadownloader.WithLang,
      mediadownloader.WithContentType, mediadownloader.ContentTypeUndefined, hl, hc]
  all_goals split <;> rfl

/-- C6: GetChannelVideos sends requests exactly to
https://host/v2/channel/videos?channelId=...&lang=... and GetTranscript
exactly to https://host/transcript?video_id=...&lang=...; the
contentType option, though accepted and defaulted, never influences the
call (outbound URL included): calls differing only in contentType are
identical. -/
theorem claim_C6_urls (host chid vid lang : String) :
    mediadownloader.channelVideosURL host chid lang
        = "https://" ++ host ++ "/v2/channel/videos?channelId=" ++ chid ++ "&lang=" ++ lang
      ∧ yttranscriptor.transcriptURL host vid lang
        = "https://" ++ host ++ "/transcript?video_id=" ++ vid ++ "&lang=" ++ lang
      ∧ (∀ (c : mediadownloader.Client) (opts : List mediadownloader.getChannelVideosOption)
            (o : mediadownloader.getChannelVideosOptions) (req : Request),
          mediadownloader.resolveGetChannelVideosOptions opts = Except.ok o →
          Event.requestIssued req ∈ (mediadownloader.GetChannelVideos c chid opts).trace →
          req.url = mediadownloader.channelVideosURL c.options.host chid o.lang)
      ∧ (∀ (c' : yttranscriptor.Client) (opts' : List yttranscriptor.getTranscriptOption)
            (o' : yttranscriptor.getTranscriptOptions) (req : Request),
          yttranscriptor.resolveGetTranscriptOptions opts' = Except.ok o' →
          Event.requestIssued req ∈ (yttranscriptor.GetTranscript c' vid opts').trace →
          req.url = yttranscriptor.transcriptURL c'.options.host vid o'.lang)
      ∧ (∀ (c : mediadownloader.Client) (ct ct' : mediadownloader.ContentType),
          mediadownloader.GetChannelVideos c chid
              [mediadownloader.WithLang lang, mediadownloader.WithContentType ct]
            = mediadownloader.GetChannelVideos c chid
              [mediadownloader.WithLang lang, mediadownloader.WithContentType ct']) := by
  refine ⟨rfl, rfl, ?_, ?_, ?_⟩
  · intro c opts o req hres hmem
    exact md_request_url c chid opts o req hres hmem
  · intro c' opts' o' req hres hmem
    exact yt_request_url c' vid opts' o' req hres hmem
  · intro c ct ct'
    unfold mediadownloader.GetChannelVideos
    rw [md_resolve_pair, md_resolve_pair]

/-- Witness for C6 at concrete inputs: the request issued by each
client carries exactly the documented URL, and two channel-videos calls
that differ only in contentType are identical. -/
theorem claim_C6_urls_witness :
    (⟨"GET", "https://h.example/v2/channel/videos?channelId=UC1&lang=en",
        [("X-RapidAPI-Key", "key"), ("X-RapidAPI-Host", "h.example")]⟩ : Request).url
        = mediadownloader.channelVideosURL "h.example" "UC1" "en"
      ∧ (⟨"GET", "https://t.example/transcript?video_id=vid1&lang=en",
        [("X-RapidAPI-Key", "key"), ("X-RapidAPI-Host", "t.example")]⟩ : Request).url
        = yttranscriptor.transcriptURL "t.example" "vid1" "en"
      ∧ mediadownloader.GetChannelVideos (mdTestClient 200 c3body) "UC1"
            [mediadownloader.WithLang "en",
              mediadownloader.WithContentType mediadownloader.ContentTypeShorts]
        = mediadownloader.GetChannelVideos (mdTestClient 200 c3body) "UC1"
            [mediadownloader.WithLang "en",
              mediadownloader.WithContentType mediadownloader.ContentTypeLive] :=
  ⟨(claim_C6_urls "h.example" "UC1" "vid1" "en").2.2.1 (mdTestClient 200 c3body) []
      ⟨"en", mediadownloader.ContentTypeVideos⟩
      ⟨"GET", "https://h.example/v2/channel/videos?channelId=UC1&lang=en",
        [("X-RapidAPI-Key", "key"), ("X-RapidAPI-Host", "h.example")]⟩ rfl (by decide),
    (claim_C6_urls "h.example" "UC1" "vid1" "en").2.2.2.1 (ytTestClient 404 "x") [] ⟨"en"⟩
      ⟨"GET", "https://t.example/transcript?video_id=vid1&lang=en",
        [("X-RapidAPI-Key", "key"), ("X-RapidAPI-Host", "t.example")]⟩ rfl (by decide),
    (claim_C6_urls "h.example" "UC1" "vid1" "en").2.2.2.2 (mdTestClient 200 c3body)
      mediadownloader.ContentTypeShorts mediadownloader.ContentTypeLive⟩
